import Mathlib

/-!
Verification of the SmartWish kiosk presence-and-streaming agent
(`surveillance/count_people.py`) against its natural-language specification.

The Python source is shallowly embedded: each class's mutable state becomes a
Lean structure, each method an explicit state-passing function, and the
network/filesystem environment (HTTP responses, file sizes, fresh buffer
identities, wall-clock instants) is supplied as explicit parameters, so every
definition is executable on concrete inputs.
-/

namespace Surveillance

/-! ## Pixel buffers

A frame buffer is modelled as an identity (`bid`, distinguishing distinct
objects in memory) together with its pixel contents.  `numpy`'s `.copy()`
allocates a new object with the same contents; the fresh identity is passed
in explicitly. -/

structure Buf where
  bid : Nat
  data : List Nat
deriving DecidableEq, Repr

def Buf.copy (b : Buf) (fresh : Nat) : Buf := ⟨fresh, b.data⟩

/-! ## FrameHolder (spec: Frame Hub)

From `class FrameHolder`: two slots `frame` and `annotated_frame`, both
initially `None`; `set_frame` overwrites both; `get_frame(annotated)` returns
`annotated_frame` when `annotated` is truthy and that slot is not `None`,
otherwise returns `frame`.  Note that `get_frame` returns the stored object
itself; it does not copy. -/

structure FrameHolder where
  frame : Option Buf
  annotated_frame : Option Buf
deriving DecidableEq, Repr

def FrameHolder.init : FrameHolder := ⟨none, none⟩

def FrameHolder.set_frame (_h : FrameHolder) (f : Option Buf) (annotated : Option Buf) :
    FrameHolder :=
  ⟨f, annotated⟩

def FrameHolder.get_frame (h : FrameHolder) (annotated : Bool) : Option Buf :=
  if annotated = true ∧ h.annotated_frame.isSome then h.annotated_frame else h.frame

/-- Spec-side restatement of the Frame Hub `get` contract, written from the
spec's words: prefer the annotated variant if requested and present, else the
raw one, else absent. -/
def getFrameSpecModel (h : FrameHolder) (want : Bool) : Option Buf :=
  match want, h.annotated_frame, h.frame with
  | true, some a, _ => some a
  | _, _, some f => some f
  | _, _, none => none

/-! ## VideoRecorder.get_latest_frame

From `VideoRecorder.get_latest_frame`: returns `self.latest_frame.copy()` when
a latest frame exists, else `None`.  The copy's fresh object identity is a
parameter. -/

def get_latest_frame (fresh : Nat) (latest_frame : Option Buf) : Option Buf :=
  match latest_frame with
  | some b => some (b.copy fresh)
  | none => none

/-! ## CameraTransformer

From `class CameraTransformer`: `transform` returns `None` for `None` input,
otherwise applies horizontal flip, then vertical flip, then the rotation
selected by `get_rotation_flag`, which maps 90/180/270 to OpenCV rotation
codes and anything else to `None` (no rotation). -/

abbrev Img := List (List Nat)

def flipHorizontal (m : Img) : Img := m.map List.reverse

def flipVertical (m : Img) : Img := m.reverse

inductive RotCode
  | cw90
  | r180
  | ccw90
deriving DecidableEq, Repr

def rotateImg : RotCode → Img → Img
  | .cw90, m => m.reverse.transpose
  | .r180, m => (m.map List.reverse).reverse
  | .ccw90, m => m.transpose.reverse

structure CameraTransformer where
  rotation : Int
  flip_h : Bool
  flip_v : Bool
deriving DecidableEq, Repr

def get_rotation_flag (angle : Int) : Option RotCode :=
  if angle = 90 then some .cw90
  else if angle = 180 then some .r180
  else if angle = 270 then some .ccw90
  else none

def CameraTransformer.transform (t : CameraTransformer) (frame : Option Img) : Option Img :=
  match frame with
  | none => none
  | some f0 =>
    let f1 := if t.flip_h then flipHorizontal f0 else f0
    let f2 := if t.flip_v then flipVertical f1 else f1
    let f3 :=
      match get_rotation_flag t.rotation with
      | some code => rotateImg code f2
      | none => f2
    some f3

/-- Spec-side restatement of the transform pipeline, written from the claim's
words: the fixed order is horizontal flip, then vertical flip, then rotation,
and a rotation angle outside the set 90/180/270 applies no rotation. -/
def transformSpecModel (t : CameraTransformer) (frame : Option Img) : Option Img :=
  frame.map fun g =>
    let afterFlips := (if t.flip_v then flipVertical else id)
      ((if t.flip_h then flipHorizontal else id) g)
    if t.rotation = 90 then rotateImg .cw90 afterFlips
    else if t.rotation = 180 then rotateImg .r180 afterFlips
    else if t.rotation = 270 then rotateImg .ccw90 afterFlips
    else afterFlips

/-! ## DetectionReporter — image upload path

From `DetectionReporter.report_detection_with_image`: when
`cloud_upload_enabled` is false the method returns `None` immediately (no
request is made).  Otherwise the HTTP interaction has four outcomes: status
201 (failure counter reset, url returned when the body carries one), status
404, any other status, or a `requests.RequestException`; the three failure
outcomes increment `cloud_upload_failures` and disable uploads once the
counter reaches `max_cloud_failures`. -/

inductive UploadOutcome
  | ok (hasUrl : Bool)
  | notFound
  | httpOther
  | netErr
deriving DecidableEq, Repr

def UploadOutcome.isFailure : UploadOutcome → Bool
  | .ok _ => false
  | _ => true

structure ReporterState where
  cloud_upload_enabled : Bool
  cloud_upload_failures : Nat
deriving DecidableEq, Repr

def max_cloud_failures : Nat := 5

def ReporterState.init : ReporterState := ⟨true, 0⟩

/-- One call to `report_detection_with_image`, given the outcome of the HTTP
request it would make.  Result: the returned image-url token, the new reporter
state, and whether an upload attempt was actually made. -/
def report_detection_with_image (st : ReporterState) (out : UploadOutcome) :
    Option Nat × ReporterState × Bool :=
  if st.cloud_upload_enabled = false then (none, st, false)
  else
    match out with
    | .ok hasUrl =>
      ((if hasUrl then some 0 else none), ⟨st.cloud_upload_enabled, 0⟩, true)
    | _ =>
      let f := st.cloud_upload_failures + 1
      (none,
       ⟨if max_cloud_failures ≤ f then false else st.cloud_upload_enabled, f⟩,
       true)

def reporterFold (st : ReporterState) : List UploadOutcome → ReporterState
  | [] => st
  | o :: rest => reporterFold (report_detection_with_image st o).2.1 rest

/-- What a `Counted` transition produces, seen from the tracker
(`PersonTracker.process_detections`, lines 1073-1090): a cloud-hosted image
when the synchronous upload returned a url, otherwise a locally saved image
plus a path-only detection queued via `report_detection`. -/
inductive EventRecord
  | cloudSaved (url : Nat)
  | localQueued
deriving DecidableEq, Repr

def handleCountedTransition (st : ReporterState) (out : UploadOutcome) :
    ReporterState × EventRecord :=
  let r := report_detection_with_image st out
  match r.1 with
  | some u => (r.2.1, .cloudSaved u)
  | none => (r.2.1, .localQueued)

/-! ## DetectionReporter — batch upload worker

From `DetectionReporter._upload_worker` and `_upload_batch`: each loop
iteration pops at most one item from `pending_queue` (timeout pop yields
nothing when the queue is empty), appends it to the in-progress batch, and
flushes when the batch holds at least 10 items or is non-empty with the batch
interval elapsed.  `_upload_batch` re-queues the whole batch only when the
POST raises a `requests.RequestException`; any HTTP response — 201 logged as
success, anything else logged as failure — leaves the batch dropped. -/

structure Detection where
  pid : Nat
deriving DecidableEq, Repr

inductive BatchResp
  | status (code : Nat)
  | netErr
deriving DecidableEq, Repr

def uploadBatchRequeue (batch : List Detection) (resp : BatchResp) : List Detection :=
  if batch = [] then []
  else
    match resp with
    | .status _ => []
    | .netErr => batch

structure WorkerState where
  queue : List Detection
  batch : List Detection
  lastUpload : Nat
deriving DecidableEq, Repr

/-- One iteration of `_upload_worker`.  Returns the new state and, when a
flush happened, the flushed batch together with the server's response. -/
def workerStep (interval now : Nat) (resp : BatchResp) (st : WorkerState) :
    WorkerState × Option (List Detection × BatchResp) :=
  let popped := st.queue.head?
  let q1 := st.queue.tail
  let batch1 := st.batch ++ popped.toList
  if 10 ≤ batch1.length ∨ (batch1 ≠ [] ∧ interval ≤ now - st.lastUpload) then
    (⟨q1 ++ uploadBatchRequeue batch1 resp, [], now⟩, some (batch1, resp))
  else
    (⟨q1, batch1, st.lastUpload⟩, none)

def workerRun (interval : Nat) (st : WorkerState) :
    List (Nat × BatchResp) → WorkerState × List (List Detection × BatchResp)
  | [] => (st, [])
  | (now, resp) :: rest =>
    let p := workerStep interval now resp st
    let q := workerRun interval p.1 rest
    (q.1, p.2.toList ++ q.2)

/-! ## WebSocketFrameStreamer — connection loop

From `WebSocketFrameStreamer._connect_loop` / `_connect_and_stream`: each
attempt either raises an exception (connect failure, socket error), after
which the loop increments `consecutive_failures` and sleeps
`min(reconnect_delay * 2^(n-1), max_reconnect_delay)` seconds; receives an
auth error reply, after which the socket is closed and `running` is set to
`False` (the loop then exits — no further attempts); or authenticates
successfully, which resets the failure counter, streams until disconnect,
and returns normally (immediate reconnect, no delay). -/

inductive AttemptResult
  | exn
  | authErr
  | okSession
deriving DecidableEq, Repr

structure StreamerState where
  running : Bool
  consecutive_failures : Nat
deriving DecidableEq, Repr

def reconnect_delay : Nat := 5

def max_reconnect_delay : Nat := 60

/-- One pass of the body of `_connect_loop`, given what the attempt comes to.
Returns the new state and the backoff delay slept, if any. -/
def attemptStep (st : StreamerState) (r : AttemptResult) : StreamerState × Option Nat :=
  match r with
  | .exn =>
    let f := st.consecutive_failures + 1
    (⟨st.running, f⟩, some (min (reconnect_delay * 2 ^ (f - 1)) max_reconnect_delay))
  | .authErr => (⟨false, st.consecutive_failures⟩, none)
  | .okSession => (⟨st.running, 0⟩, none)

/-- `_connect_loop`: keeps attempting while `running`; the log records each
attempt actually made with the delay slept after it. -/
def connectLoop (st : StreamerState) :
    List AttemptResult → StreamerState × List (AttemptResult × Option Nat)
  | [] => (st, [])
  | r :: rest =>
    if st.running then
      let p := attemptStep st r
      let q := connectLoop p.1 rest
      (q.1, (r, p.2) :: q.2)
    else (st, [])

/-! ## VideoRecorder — session recording state

From `class VideoRecorder` (`__init__`, `start_recording`, `stop_and_upload`)
and the `/recording/start` branch of `SurveillanceHTTPHandler.do_POST`.
Fractional rates are modelled as rationals (`webcam_delay = 1 / webcam_fps`);
video file paths are tokens; the filesystem is a map from path token to file
size, queried by `stop_and_upload` to decide which files to upload. -/

structure VideoRecorderState where
  record_webcam : Bool
  record_screen : Bool
  webcam_fps : Rat
  screen_fps : Rat
  webcam_delay : Rat
  screen_delay : Rat
  rotation : Int
  flip_h : Bool
  flip_v : Bool
  session_id : Option Nat
  webcam_path : Option Nat
  screen_path : Option Nat
  webcam_frame_count : Nat
  screen_frame_count : Nat
  is_recording : Bool
  screen_stop_event : Bool
  screen_thread_running : Bool
  webcam_writer_open : Bool
deriving DecidableEq, Repr

/-- `VideoRecorder.start_recording`: a no-op (with an "Already recording!"
warning) while `is_recording`; otherwise assigns the session id (defaulting
to a time-derived one), resets the frame counters, derives the output paths
from the start timestamp, raises `is_recording`, and starts the screen thread
when screen recording is enabled and a capture backend exists.  Returns the
new state and whether the warning fired. -/
def start_recording (now : Nat) (screenCapAvailable : Bool) (sid : Option Nat)
    (st : VideoRecorderState) : VideoRecorderState × Bool :=
  if st.is_recording then (st, true)
  else
    let startScreen := st.record_screen ∧ screenCapAvailable
    ({ st with
        session_id := some (sid.getD now)
        webcam_frame_count := 0
        screen_frame_count := 0
        webcam_path := if st.record_webcam then some now else none
        screen_path := if st.record_screen then some now else none
        is_recording := true
        screen_stop_event := if startScreen then false else st.screen_stop_event
        screen_thread_running := if startScreen then true else st.screen_thread_running },
     false)

inductive VideoKind
  | webcam
  | screen
deriving DecidableEq, Repr

structure UploadAction where
  path : Nat
  kind : VideoKind
deriving DecidableEq, Repr

def uploadIfBig (fsSize : Nat → Option Nat) (path : Option Nat) (kind : VideoKind) :
    List UploadAction :=
  match path with
  | none => []
  | some p =>
    match fsSize p with
    | none => []
    | some size => if 1024 < size then [⟨p, kind⟩] else []

/-- `VideoRecorder.stop_and_upload`: returns immediately while not recording;
otherwise lowers `is_recording`, signals the screen thread to stop, force
closes the webcam writer, and uploads each output file that exists with size
above 1024 bytes. -/
def stop_and_upload (fsSize : Nat → Option Nat) (st : VideoRecorderState) :
    VideoRecorderState × List UploadAction :=
  if st.is_recording = false then (st, [])
  else
    ({ st with
        is_recording := false
        screen_stop_event := true
        screen_thread_running := false
        webcam_writer_open := false },
     uploadIfBig fsSize st.webcam_path .webcam ++ uploadIfBig fsSize st.screen_path .screen)

/-! ## HTTP `/recording/start` command -/

structure StartCmd where
  sessionId : Option Nat
  recordWebcam : Option Bool
  recordScreen : Option Bool
  webcamFps : Option Rat
  screenFps : Option Rat
  cameraRotation : Option Int
  cameraFlipHorizontal : Option Bool
  cameraFlipVertical : Option Bool
deriving DecidableEq, Repr

/-- The config-override block of the `/recording/start` handler, executed
before `start_recording` regardless of recording state.  Boolean and rotation
fields apply when present (`is not None` checks); the fps fields apply only
when present and non-zero (truthiness checks), also refreshing the derived
delays. -/
def applyRecordingConfig (cmd : StartCmd) (st : VideoRecorderState) : VideoRecorderState :=
  let s1 := match cmd.recordWebcam with
    | some b => { st with record_webcam := b }
    | none => st
  let s2 := match cmd.recordScreen with
    | some b => { s1 with record_screen := b }
    | none => s1
  let s3 := match cmd.webcamFps with
    | some v => if v ≠ 0 then { s2 with webcam_fps := v, webcam_delay := 1 / v } else s2
    | none => s2
  let s4 := match cmd.screenFps with
    | some v => if v ≠ 0 then { s3 with screen_fps := v, screen_delay := 1 / v } else s3
    | none => s3
  let s5 := match cmd.cameraRotation with
    | some r => { s4 with rotation := r }
    | none => s4
  let s6 := match cmd.cameraFlipHorizontal with
    | some b => { s5 with flip_h := b }
    | none => s5
  match cmd.cameraFlipVertical with
  | some b => { s6 with flip_v := b }
  | none => s6

/-- The `/recording/start` branch of `do_POST`: 400 when no session id is
supplied; otherwise apply the config overrides, call `start_recording`, and
answer 200.  Returns the new state, the HTTP status, and whether the
already-recording warning fired. -/
def handleRecordingStart (now : Nat) (screenCapAvailable : Bool) (cmd : StartCmd)
    (st : VideoRecorderState) : VideoRecorderState × Nat × Bool :=
  match cmd.sessionId with
  | none => (st, 400, false)
  | some sid =>
    let s1 := applyRecordingConfig cmd st
    let p := start_recording now screenCapAvailable (some sid) s1
    (p.1, 200, p.2)

/-! ## PersonTracker

From `PersonTracker.process_detections`: for each track id of the current
frame, a brand-new id gets `id_first_seen[id] = now` and
`id_frame_counts[id] = 0`; the counter is then incremented unconditionally
(also on that first frame).  When the incremented counter has reached
`frames_to_count` and the id was not counted yet, the id joins `counted_ids`,
the dwell time `now - first_seen` is computed and one detection event with
`was_counted = True` is produced (through the reporter's image path or, on
upload failure, the local-save plus path-only queue path).  Frame timestamps
are modelled as the frame's index. -/

abbrev TrackId := Nat

structure CountedEvent where
  trackId : TrackId
  detectedAt : Nat
  dwellSeconds : Nat
  wasCounted : Bool
deriving DecidableEq, Repr

structure TrackerState where
  id_first_seen : TrackId → Option Nat
  id_frame_counts : TrackId → Nat
  counted_ids : TrackId → Bool
  daily_count : Nat

def initTracker : TrackerState :=
  { id_first_seen := fun _ => none
    id_frame_counts := fun _ => 0
    counted_ids := fun _ => false
    daily_count := 0 }

/-- The body of the `for obj_id in track_ids` loop for one id. -/
def processOne (F now : Nat) (st : TrackerState) (i : TrackId) :
    TrackerState × Option CountedEvent :=
  let isNew := (st.id_first_seen i).isNone
  let fs : TrackId → Option Nat := fun j =>
    if j = i then (if isNew then some now else st.id_first_seen i) else st.id_first_seen j
  let newCount : Nat := (if isNew then 0 else st.id_frame_counts i) + 1
  let fc : TrackId → Nat := fun j => if j = i then newCount else st.id_frame_counts j
  if F ≤ newCount ∧ st.counted_ids i = false then
    ({ id_first_seen := fs
       id_frame_counts := fc
       counted_ids := fun j => if j = i then true else st.counted_ids j
       daily_count := st.daily_count + 1 },
     some { trackId := i, detectedAt := now,
            dwellSeconds := now - (fs i).getD now, wasCounted := true })
  else
    ({ id_first_seen := fs
       id_frame_counts := fc
       counted_ids := st.counted_ids
       daily_count := st.daily_count }, none)

/-- `process_detections` over one frame's id list. -/
def processList (F now : Nat) (ids : List TrackId) (st : TrackerState) :
    TrackerState × List CountedEvent :=
  match ids with
  | [] => (st, [])
  | i :: rest =>
    let p := processOne F now st i
    let q := processList F now rest p.1
    (q.1, p.2.toList ++ q.2)

/-- The detection loop over successive frames; frame `k` of the list is
processed at time `now + k`. -/
def runFrom (F : Nat) (st : TrackerState) (now : Nat) :
    List (List TrackId) → TrackerState × List CountedEvent
  | [] => (st, [])
  | f :: rest =>
    let p := processList F now f st
    let q := runFrom F p.1 (now + 1) rest
    (q.1, p.2 ++ q.2)

def runTracker (F : Nat) (frames : List (List TrackId)) : TrackerState × List CountedEvent :=
  runFrom F initTracker 0 frames

/-! ### Single-track projection

The per-id fields of the tracker evolve independently of other ids; the
projection onto one id is the following three-field automaton driven by the
id's per-frame presence. -/

structure TrackState where
  firstSeen : Option Nat
  count : Nat
  counted : Bool
deriving DecidableEq, Repr

def TrackerState.proj (st : TrackerState) (i : TrackId) : TrackState :=
  ⟨st.id_first_seen i, st.id_frame_counts i, st.counted_ids i⟩

def trackStep (F now : Nat) (i : TrackId) (present : Bool) (ts : TrackState) :
    TrackState × Option CountedEvent :=
  match present with
  | false => (ts, none)
  | true =>
    let fs := match ts.firstSeen with
      | none => some now
      | some t => some t
    let c := (match ts.firstSeen with
      | none => 0
      | some _ => ts.count) + 1
    if F ≤ c ∧ ts.counted = false then
      (⟨fs, c, true⟩,
       some { trackId := i, detectedAt := now,
              dwellSeconds := now - fs.getD now, wasCounted := true })
    else (⟨fs, c, ts.counted⟩, none)

def trackRun (F : Nat) (i : TrackId) (now : Nat) (ts : TrackState) :
    List Bool → TrackState × List CountedEvent
  | [] => (ts, [])
  | b :: rest =>
    let p := trackStep F now i b ts
    let q := trackRun F i (now + 1) p.1 rest
    (q.1, p.2.toList ++ q.2)

/-- The time of the `k`-th `true` (1-indexed) in the presence sequence, the
first entry standing for time `now`.  For the single-track automaton, the
cumulative appearance-frame count first reaches `k` exactly at this time. -/
def nthTrueTime : List Bool → Nat → Nat → Option Nat
  | [], _, _ => none
  | b :: rest, now, k =>
    if b then (if k ≤ 1 then some now else nthTrueTime rest (now + 1) (k - 1))
    else nthTrueTime rest (now + 1) k

/-- The per-frame presence sequence of an id. -/
def presence (frames : List (List TrackId)) (i : TrackId) : List Bool :=
  frames.map fun f => decide (i ∈ f)

/-- The streamer thread seen next to the tracker: one pass of the connection
loop mutates only the streamer's own fields and leaves the tracker state
untouched (in the source the two objects share no mutable attribute; the
streamer only reads frames from the holder). -/
def systemStreamerStep (ts : TrackerState) (ss : StreamerState) (r : AttemptResult) :
    TrackerState × StreamerState :=
  (ts, (attemptStep ss r).1)

/-! ## Theorems -/

/-- Claim C7: for every Frame Hub state, `get(wantAnnotated)` returns the
annotated frame when requested and present, else the raw frame when present,
else absent; before the first `set` both `get(true)` and `get(false)` return
absent. -/
theorem C7_frame_hub_get_contract :
    (∀ (h : FrameHolder) (want : Bool),
      FrameHolder.get_frame h want = getFrameSpecModel h want) ∧
    (∀ want : Bool, FrameHolder.get_frame FrameHolder.init want = none) := by
  constructor
  · intro h want
    rcases h with ⟨f, a⟩
    cases want <;> cases a <;> cases f <;>
      simp [FrameHolder.get_frame, getFrameSpecModel]
  · intro want
    cases want <;> rfl

/-- Claim C10: `CameraTransformer.transform` returns `None` exactly on `None`
input, applies horizontal flip, then vertical flip, then rotation in that
fixed order with angles outside 90/180/270 applying no rotation, and the
transformer configured with rotation 0 and both flips off is the identity. -/
theorem C10_camera_transform_pipeline :
    (∀ (t : CameraTransformer) (fr : Option Img),
      t.transform fr = transformSpecModel t fr) ∧
    (∀ (t : CameraTransformer) (fr : Option Img), t.transform fr = none ↔ fr = none) ∧
    (∀ fr : Option Img, CameraTransformer.transform ⟨0, false, false⟩ fr = fr) := by
  refine ⟨?_, ?_, ?_⟩
  · intro t fr
    cases fr with
    | none => rfl
    | some g =>
      simp only [CameraTransformer.transform, transformSpecModel, get_rotation_flag,
        Option.map_some]
      split_ifs <;> cases t.flip_h <;> cases t.flip_v <;> simp
  · intro t fr
    cases fr with
    | none => simp [CameraTransformer.transform]
    | some g => simp [CameraTransformer.transform]
  · intro fr
    cases fr with
    | none => rfl
    | some g => simp [CameraTransformer.transform, get_rotation_flag]

/-- Claim C8, counterexample: `FrameHolder.get_frame` hands back the very
buffer stored in the holder (same object identity 0), not a copy, so the
claim that every consumer read returns a distinct copy is false; by contrast
`VideoRecorder.get_latest_frame` does return a fresh copy. -/
theorem C8_counterexample :
    FrameHolder.get_frame ⟨some ⟨0, [1, 2]⟩, none⟩ false = some ⟨0, [1, 2]⟩ ∧
    (FrameHolder.get_frame ⟨some ⟨0, [1, 2]⟩, none⟩ false).map Buf.bid = some 0 ∧
    get_latest_frame 7 (some ⟨0, [1, 2]⟩) = some ⟨7, [1, 2]⟩ := by
  decide

/-- Claim C8, amended: `VideoRecorder.get_latest_frame` returns a fresh copy
of the stored frame (new object identity, same contents), while
`FrameHolder.get_frame` returns the stored buffer itself, shared with the
writer. -/
theorem C8_amended (fresh : Nat) (b : Buf) (hfresh : fresh ≠ b.bid)
    (hold : FrameHolder) (hb : hold.frame = some b) :
    ((get_latest_frame fresh (some b)).map Buf.bid = some fresh ∧
      (get_latest_frame fresh (some b)).map Buf.data = some b.data ∧
      (some fresh : Option Nat) ≠ some b.bid) ∧
    get_latest_frame fresh none = none ∧
    FrameHolder.get_frame hold false = some b := by
  refine ⟨⟨rfl, rfl, by simpa using hfresh⟩, rfl, ?_⟩
  simp [FrameHolder.get_frame, hb]

/-- Witness for `C8_amended` at a concrete buffer and holder. -/
theorem C8_amended_witness :
    ((get_latest_frame 7 (some ⟨0, [1, 2]⟩)).map Buf.bid = some 7 ∧
      (get_latest_frame 7 (some ⟨0, [1, 2]⟩)).map Buf.data = some (⟨0, [1, 2]⟩ : Buf).data ∧
      (some 7 : Option Nat) ≠ some (⟨0, [1, 2]⟩ : Buf).bid) ∧
    get_latest_frame 7 none = none ∧
    FrameHolder.get_frame ⟨some ⟨0, [1, 2]⟩, none⟩ false = some ⟨0, [1, 2]⟩ :=
  C8_amended 7 ⟨0, [1, 2]⟩ (by decide) ⟨some ⟨0, [1, 2]⟩, none⟩ rfl

/-- Once disabled, the reporter's image-upload path stays disabled through any
further sequence of calls. -/
lemma reporterFold_disabled (outs : List UploadOutcome) :
    ∀ st : ReporterState, st.cloud_upload_enabled = false →
      (reporterFold st outs).cloud_upload_enabled = false := by
  induction outs with
  | nil => intro st h; exact h
  | cons o rest ih =>
    intro st h
    have hstep : report_detection_with_image st o = (none, st, false) := by
      simp [report_detection_with_image, h]
    rw [reporterFold, hstep]
    exact ih st h

/-- Claim C4: once `cloud_upload_failures` reaches `max_cloud_failures` (5
consecutive failures; a 201 success resets the counter),
`cloud_upload_enabled` becomes false and never becomes true again: every
later `report_detection_with_image` call returns `None` without attempting an
upload, and every later Counted transition produces the local-save plus
path-only-queue fallback. -/
theorem C4_cloud_upload_disable_permanent (st : ReporterState)
    (hdis : st.cloud_upload_enabled = false) (outs : List UploadOutcome)
    (anyOut failOut : UploadOutcome) (hfail : failOut.isFailure = true)
    (fcount : Nat) (hf : 4 ≤ fcount) :
    report_detection_with_image st anyOut = (none, st, false) ∧
    (reporterFold st outs).cloud_upload_enabled = false ∧
    handleCountedTransition st anyOut = (st, .localQueued) ∧
    (report_detection_with_image ⟨true, fcount⟩ failOut).2.1.cloud_upload_enabled = false ∧
    (report_detection_with_image ⟨true, fcount⟩ (.ok true)).2.1.cloud_upload_failures = 0 := by
  have hstep : report_detection_with_image st anyOut = (none, st, false) := by
    simp [report_detection_with_image, hdis]
  refine ⟨hstep, reporterFold_disabled outs st hdis, ?_, ?_, ?_⟩
  · rw [handleCountedTransition, hstep]
  · cases failOut with
    | ok hasUrl => exact absurd hfail (by simp [UploadOutcome.isFailure])
    | notFound =>
      simp only [report_detection_with_image, max_cloud_failures]
      rw [if_neg (by simp), if_pos (by omega)]
    | httpOther =>
      simp only [report_detection_with_image, max_cloud_failures]
      rw [if_neg (by simp), if_pos (by omega)]
    | netErr =>
      simp only [report_detection_with_image, max_cloud_failures]
      rw [if_neg (by simp), if_pos (by omega)]
  · simp [report_detection_with_image]

/-- Witness for `C4_cloud_upload_disable_permanent` at a disabled reporter
state, failure count 4, and concrete outcomes. -/
theorem C4_witness :
    report_detection_with_image ⟨false, 5⟩ (.ok true) = (none, ⟨false, 5⟩, false) ∧
    (reporterFold ⟨false, 5⟩ [.ok true]).cloud_upload_enabled = false ∧
    handleCountedTransition ⟨false, 5⟩ (.ok true) = (⟨false, 5⟩, .localQueued) ∧
    (report_detection_with_image ⟨true, 4⟩ .netErr).2.1.cloud_upload_enabled = false ∧
    (report_detection_with_image ⟨true, 4⟩ (.ok true)).2.1.cloud_upload_failures = 0 :=
  C4_cloud_upload_disable_permanent ⟨false, 5⟩ rfl [.ok true] (.ok true) .netErr rfl 4
    (by omega)

/-- Claim C5: `stop_and_upload` is idempotent: calling it while not recording
is a no-op with no upload work, and a second call right after a first one
performs no upload work and changes nothing. -/
theorem C5_stop_and_upload_idempotent (fsSize : Nat → Option Nat)
    (st : VideoRecorderState) (hnot : st.is_recording = false) :
    stop_and_upload fsSize st = (st, []) ∧
    (∀ st2 : VideoRecorderState,
      stop_and_upload fsSize (stop_and_upload fsSize st2).1 =
        ((stop_and_upload fsSize st2).1, [])) := by
  constructor
  · simp [stop_and_upload, hnot]
  · intro st2
    by_cases h : st2.is_recording = false
    · simp [stop_and_upload, h]
    · simp only [stop_and_upload, if_neg h]
      simp

/-- Witness for `C5_stop_and_upload_idempotent` at a concrete idle recorder
state. -/
theorem C5_witness :
    stop_and_upload (fun _ => none)
        ⟨true, true, 30, 1, 1 / 30, 1, 0, false, false, none, none, none, 0, 0,
          false, false, false, false⟩ =
      (⟨true, true, 30, 1, 1 / 30, 1, 0, false, false, none, none, none, 0, 0,
          false, false, false, false⟩, []) ∧
    (∀ st2 : VideoRecorderState,
      stop_and_upload (fun _ => none) (stop_and_upload (fun _ => none) st2).1 =
        ((stop_and_upload (fun _ => none) st2).1, [])) :=
  C5_stop_and_upload_idempotent (fun _ => none) _ rfl

/-- Claim C3, counterexample: a one-item batch flushed on an elapsed interval
and answered with HTTP 500 — a failed delivery by any reading, and not a 2xx —
is dropped: the item is re-queued nowhere (new queue and batch both empty), so
at-least-once delivery does not hold for HTTP error responses. -/
theorem C3_counterexample :
    workerStep 30 30 (.status 500) ⟨[⟨0⟩], [], 0⟩ =
      (⟨[], [], 30⟩, some ([⟨0⟩], .status 500)) := by
  decide

/-- Claim C3, amended: the batching loop flushes when 10 items are queued or
the configured interval has elapsed with a non-empty batch, but a flushed
batch is re-queued in full only when the POST raises a network exception; an
HTTP response with any status code (only 201 is even logged as success)
leaves the batch dropped, so delivery is at-least-once only against
network-level failures. -/
theorem C3_upload_worker_amended (interval now : Nat) (resp : BatchResp)
    (st : WorkerState) (code : Nat) :
    ((workerStep interval now resp st).2 ≠ none ↔
      (10 ≤ (st.batch ++ st.queue.head?.toList).length ∨
        ((st.batch ++ st.queue.head?.toList) ≠ [] ∧ interval ≤ now - st.lastUpload))) ∧
    ((workerStep interval now .netErr st).2 ≠ none →
      (workerStep interval now .netErr st).1.queue =
        st.queue.tail ++ (st.batch ++ st.queue.head?.toList)) ∧
    ((workerStep interval now (.status code) st).2 ≠ none →
      (workerStep interval now (.status code) st).1.queue = st.queue.tail ∧
      (workerStep interval now (.status code) st).1.batch = []) := by
  have hne : ∀ r : BatchResp,
      (10 ≤ (st.batch ++ st.queue.head?.toList).length ∨
        ((st.batch ++ st.queue.head?.toList) ≠ [] ∧ interval ≤ now - st.lastUpload)) →
      st.batch ++ st.queue.head?.toList ≠ [] := by
    intro r h
    rcases h with h | h
    · intro hcon
      rw [hcon] at h
      simp at h
    · exact h.1
  refine ⟨?_, ?_, ?_⟩
  · rw [workerStep]
    split_ifs with h
    · simpa using h
    · simpa using h
  · intro hflush
    rw [workerStep] at hflush ⊢
    split_ifs at hflush ⊢ with h
    · rw [uploadBatchRequeue, if_neg (hne .netErr h)]
    · simp at hflush
  · intro hflush
    rw [workerStep] at hflush ⊢
    split_ifs at hflush ⊢ with h
    · rw [uploadBatchRequeue]
      split_ifs with h2 <;> simp
    · simp at hflush

/-- Witness for `C3_upload_worker_amended` at a concrete state flushing a
one-item batch under a network exception. -/
theorem C3_witness :
    ((workerStep 30 30 .netErr ⟨[⟨0⟩], [], 0⟩).2 ≠ none ↔
      (10 ≤ (([] : List Detection) ++ ([⟨0⟩] : List Detection).head?.toList).length ∨
        ((([] : List Detection) ++ ([⟨0⟩] : List Detection).head?.toList) ≠ [] ∧
          30 ≤ 30 - 0))) ∧
    ((workerStep 30 30 .netErr ⟨[⟨0⟩], [], 0⟩).2 ≠ none →
      (workerStep 30 30 .netErr ⟨[⟨0⟩], [], 0⟩).1.queue =
        ([⟨0⟩] : List Detection).tail ++
          (([] : List Detection) ++ ([⟨0⟩] : List Detection).head?.toList)) ∧
    ((workerStep 30 30 (.status 503) ⟨[⟨0⟩], [], 0⟩).2 ≠ none →
      (workerStep 30 30 (.status 503) ⟨[⟨0⟩], [], 0⟩).1.queue =
        ([⟨0⟩] : List Detection).tail ∧
      (workerStep 30 30 (.status 503) ⟨[⟨0⟩], [], 0⟩).1.batch = []) :=
  C3_upload_worker_amended 30 30 .netErr ⟨[⟨0⟩], [], 0⟩ 503

/-- Claim C6, counterexample: a `/recording/start` command arriving while a
session is already active still applies the config overrides carried in its
body before the no-op `start_recording`: here the second start changes the
configured webcam rate from 30 to 15 fps. -/
theorem C6_counterexample :
    (handleRecordingStart 99 true
        ⟨some 1, none, none, some 15, none, none, none, none⟩
        ⟨true, true, 30, 1, 1 / 30, 1, 0, false, false, some 0, some 0, some 0,
          5, 5, true, false, true, true⟩).1.webcam_fps = 15 ∧
    (⟨true, true, 30, 1, 1 / 30, 1, 0, false, false, some 0, some 0, some 0,
        5, 5, true, false, true, true⟩ : VideoRecorderState).webcam_fps = 30 ∧
    (handleRecordingStart 99 true
        ⟨some 1, none, none, some 15, none, none, none, none⟩
        ⟨true, true, 30, 1, 1 / 30, 1, 0, false, false, some 0, some 0, some 0,
          5, 5, true, false, true, true⟩).2.2 = true := by
  decide

/-- The config-override block touches only the recording config, rate, and
camera-transform fields; session id, output paths, frame counters, and the
recording flag pass through unchanged. -/
lemma applyRecordingConfig_preserves (cmd : StartCmd) (st : VideoRecorderState) :
    (applyRecordingConfig cmd st).session_id = st.session_id ∧
    (applyRecordingConfig cmd st).webcam_path = st.webcam_path ∧
    (applyRecordingConfig cmd st).screen_path = st.screen_path ∧
    (applyRecordingConfig cmd st).webcam_frame_count = st.webcam_frame_count ∧
    (applyRecordingConfig cmd st).screen_frame_count = st.screen_frame_count ∧
    (applyRecordingConfig cmd st).is_recording = st.is_recording := by
  rcases cmd with ⟨s, rw, rs, wf, sf, rot, fh, fv⟩
  unfold applyRecordingConfig
  cases rw <;> cases rs <;> cases wf <;> cases sf <;> cases rot <;> cases fh <;>
    cases fv <;> simp <;> split_ifs <;> simp

/-- Claim C6, amended: while a session is active a `/recording/start` command
is answered 200 (not an error) with the already-recording warning and leaves
the session identity — session id, output paths, frame counters, recording
flag — unchanged; a command carrying no config overrides changes nothing at
all; but overrides present in the body (rates, camera-transform settings) are
applied even during an active session. -/
theorem C6_second_start_amended (now : Nat) (scap : Bool) (cmd : StartCmd)
    (st : VideoRecorderState) (hrec : st.is_recording = true) (sid : Nat)
    (hsid : cmd.sessionId = some sid) :
    (handleRecordingStart now scap cmd st).2.1 = 200 ∧
    (handleRecordingStart now scap cmd st).2.2 = true ∧
    (handleRecordingStart now scap cmd st).1.session_id = st.session_id ∧
    (handleRecordingStart now scap cmd st).1.webcam_path = st.webcam_path ∧
    (handleRecordingStart now scap cmd st).1.screen_path = st.screen_path ∧
    (handleRecordingStart now scap cmd st).1.webcam_frame_count = st.webcam_frame_count ∧
    (handleRecordingStart now scap cmd st).1.screen_frame_count = st.screen_frame_count ∧
    (handleRecordingStart now scap cmd st).1.is_recording = true ∧
    (cmd.recordWebcam = none → cmd.recordScreen = none → cmd.webcamFps = none →
      cmd.screenFps = none → cmd.cameraRotation = none →
      cmd.cameraFlipHorizontal = none → cmd.cameraFlipVertical = none →
      (handleRecordingStart now scap cmd st).1 = st) := by
  obtain ⟨h1, h2, h3, h4, h5, h6⟩ := applyRecordingConfig_preserves cmd st
  have hrec2 : (applyRecordingConfig cmd st).is_recording = true := h6.trans hrec
  have hmain : handleRecordingStart now scap cmd st =
      (applyRecordingConfig cmd st, 200, true) := by
    rw [handleRecordingStart, hsid]
    simp only [start_recording, if_pos hrec2]
  rw [hmain]
  refine ⟨rfl, rfl, h1, h2, h3, h4, h5, hrec2.trans rfl, ?_⟩
  intro n1 n2 n3 n4 n5 n6 n7
  have hid : applyRecordingConfig cmd st = st := by
    unfold applyRecordingConfig
    rw [n1, n2, n3, n4, n5, n6, n7]
  exact hid

/-- Witness for `C6_second_start_amended` at a concrete active recorder and a
bare start command. -/
theorem C6_witness :
    (handleRecordingStart 99 true ⟨some 1, none, none, none, none, none, none, none⟩
        ⟨true, true, 30, 1, 1 / 30, 1, 0, false, false, some 0, some 0, some 0,
          5, 5, true, false, true, true⟩).2.1 = 200 ∧
    (handleRecordingStart 99 true ⟨some 1, none, none, none, none, none, none, none⟩
        ⟨true, true, 30, 1, 1 / 30, 1, 0, false, false, some 0, some 0, some 0,
          5, 5, true, false, true, true⟩).2.2 = true ∧
    (handleRecordingStart 99 true ⟨some 1, none, none, none, none, none, none, none⟩
        ⟨true, true, 30, 1, 1 / 30, 1, 0, false, false, some 0, some 0, some 0,
          5, 5, true, false, true, true⟩).1.session_id =
      (⟨true, true, 30, 1, 1 / 30, 1, 0, false, false, some 0, some 0, some 0,
          5, 5, true, false, true, true⟩ : VideoRecorderState).session_id ∧
    (handleRecordingStart 99 true ⟨some 1, none, none, none, none, none, none, none⟩
        ⟨true, true, 30, 1, 1 / 30, 1, 0, false, false, some 0, some 0, some 0,
          5, 5, true, false, true, true⟩).1.webcam_path =
      (⟨true, true, 30, 1, 1 / 30, 1, 0, false, false, some 0, some 0, some 0,
          5, 5, true, false, true, true⟩ : VideoRecorderState).webcam_path ∧
    (handleRecordingStart 99 true ⟨some 1, none, none, none, none, none, none, none⟩
        ⟨true, true, 30, 1, 1 / 30, 1, 0, false, false, some 0, some 0, some 0,
          5, 5, true, false, true, true⟩).1.screen_path =
      (⟨true, true, 30, 1, 1 / 30, 1, 0, false, false, some 0, some 0, some 0,
          5, 5, true, false, true, true⟩ : VideoRecorderState).screen_path ∧
    (handleRecordingStart 99 true ⟨some 1, none, none, none, none, none, none, none⟩
        ⟨true, true, 30, 1, 1 / 30, 1, 0, false, false, some 0, some 0, some 0,
          5, 5, true, false, true, true⟩).1.webcam_frame_count =
      (⟨true, true, 30, 1, 1 / 30, 1, 0, false, false, some 0, some 0, some 0,
          5, 5, true, false, true, true⟩ : VideoRecorderState).webcam_frame_count ∧
    (handleRecordingStart 99 true ⟨some 1, none, none, none, none, none, none, none⟩
        ⟨true, true, 30, 1, 1 / 30, 1, 0, false, false, some 0, some 0, some 0,
          5, 5, true, false, true, true⟩).1.screen_frame_count =
      (⟨true, true, 30, 1, 1 / 30, 1, 0, false, false, some 0, some 0, some 0,
          5, 5, true, false, true, true⟩ : VideoRecorderState).screen_frame_count ∧
    (handleRecordingStart 99 true ⟨some 1, none, none, none, none, none, none, none⟩
        ⟨true, true, 30, 1, 1 / 30, 1, 0, false, false, some 0, some 0, some 0,
          5, 5, true, false, true, true⟩).1.is_recording = true ∧
    ((⟨some 1, none, none, none, none, none, none, none⟩ : StartCmd).recordWebcam = none →
      (⟨some 1, none, none, none, none, none, none, none⟩ : StartCmd).recordScreen = none →
      (⟨some 1, none, none, none, none, none, none, none⟩ : StartCmd).webcamFps = none →
      (⟨some 1, none, none, none, none, none, none, none⟩ : StartCmd).screenFps = none →
      (⟨some 1, none, none, none, none, none, none, none⟩ : StartCmd).cameraRotation = none →
      (⟨some 1, none, none, none, none, none, none, none⟩ :
          StartCmd).cameraFlipHorizontal = none →
      (⟨some 1, none, none, none, none, none, none, none⟩ :
          StartCmd).cameraFlipVertical = none →
      (handleRecordingStart 99 true ⟨some 1, none, none, none, none, none, none, none⟩
          ⟨true, true, 30, 1, 1 / 30, 1, 0, false, false, some 0, some 0, some 0,
            5, 5, true, false, true, true⟩).1 =
        ⟨true, true, 30, 1, 1 / 30, 1, 0, false, false, some 0, some 0, some 0,
          5, 5, true, false, true, true⟩) :=
  C6_second_start_amended 99 true ⟨some 1, none, none, none, none, none, none, none⟩
    ⟨true, true, 30, 1, 1 / 30, 1, 0, false, false, some 0, some 0, some 0,
      5, 5, true, false, true, true⟩ rfl 1 rfl

/-- A stopped connection loop consumes no further attempts. -/
lemma connectLoop_stopped (st : StreamerState) (hstop : st.running = false)
    (script : List AttemptResult) : connectLoop st script = (st, []) := by
  cases script with
  | nil => rfl
  | cons r rest => rw [connectLoop, if_neg (by rw [hstop]; exact Bool.false_ne_true)]

/-- The schedule of reconnect delays over `n` consecutive exception failures
starting from failure count `f`: the `k`-th of them sleeps
`min (5 * 2 ^ (f + k)) 60`. -/
lemma connectLoop_exn_schedule (n : Nat) :
    ∀ f : Nat, connectLoop ⟨true, f⟩ (List.replicate n .exn) =
      (⟨true, f + n⟩, (List.range n).map fun k =>
        (.exn, some (min (reconnect_delay * 2 ^ (f + k)) max_reconnect_delay))) := by
  induction n with
  | zero => intro f; simp [connectLoop]
  | succ m ih =>
    intro f
    rw [List.replicate_succ, connectLoop, if_pos rfl]
    have hstep : attemptStep ⟨true, f⟩ .exn =
        (⟨true, f + 1⟩, some (min (reconnect_delay * 2 ^ f) max_reconnect_delay)) := by
      simp [attemptStep]
    rw [hstep]
    dsimp only
    rw [ih (f + 1)]
    refine Prod.ext (by simp; omega) ?_
    simp only [List.range_succ_eq_map, List.map_cons, List.map_map]
    refine congrArg₂ _ (by simp) ?_
    refine List.map_congr_left fun k _ => ?_
    simp only [Function.comp]
    have : f + 1 + k = f + (k + 1) := by omega
    rw [this]

/-- Claim C9, counterexample: when the backend answers the authentication
message with an error reply, the publisher does not reconnect with backoff —
it sets `running` to false and the connection loop exits, so a scripted
second attempt is never made (the loop log has a single entry). -/
theorem C9_counterexample :
    connectLoop ⟨true, 0⟩ [.authErr, .exn] = (⟨false, 0⟩, [(.authErr, none)]) ∧
    (connectLoop ⟨true, 0⟩ [.authErr, .exn]).2.length = 1 := by
  decide

/-- Claim C9, amended: an auth error reply makes the publisher log the error,
close the socket, and stop permanently (`running := false`; the loop makes no
further connection attempts with those or any credentials); connection
attempts that fail with an exception instead back off, the `n`-th consecutive
failure sleeping `min (5 * 2 ^ (n - 1)) 60` seconds; and the streamer thread
leaves the tracker state untouched, so capture, detection, and counting are
unaffected. -/
theorem C9_auth_error_amended (f : Nat) (script : List AttemptResult)
    (st : StreamerState) (hstop : st.running = false) (n : Nat) :
    connectLoop st script = (st, []) ∧
    connectLoop ⟨true, f⟩ (.authErr :: script) = (⟨false, f⟩, [(.authErr, none)]) ∧
    connectLoop ⟨true, 0⟩ (List.replicate n .exn) =
      (⟨true, n⟩, (List.range n).map fun k =>
        (.exn, some (min (5 * 2 ^ k) 60))) ∧
    (∀ (ts : TrackerState) (r : AttemptResult), (systemStreamerStep ts st r).1 = ts) := by
  refine ⟨connectLoop_stopped st hstop script, ?_, ?_, fun ts r => rfl⟩
  · rw [connectLoop, if_pos rfl]
    have hstep : attemptStep ⟨true, f⟩ .authErr = (⟨false, f⟩, none) := rfl
    rw [hstep]
    dsimp only
    rw [connectLoop_stopped ⟨false, f⟩ rfl script]
  · have h := connectLoop_exn_schedule n 0
    simpa [reconnect_delay, max_reconnect_delay] using h

/-- Witness for `C9_auth_error_amended` at a concrete stopped streamer and a
three-failure schedule. -/
theorem C9_witness :
    connectLoop ⟨false, 2⟩ [.exn] = (⟨false, 2⟩, []) ∧
    connectLoop ⟨true, 7⟩ (.authErr :: [.exn]) = (⟨false, 7⟩, [(.authErr, none)]) ∧
    connectLoop ⟨true, 0⟩ (List.replicate 3 .exn) =
      (⟨true, 3⟩, (List.range 3).map fun k =>
        (.exn, some (min (5 * 2 ^ k) 60))) ∧
    (∀ (ts : TrackerState) (r : AttemptResult),
      (systemStreamerStep ts ⟨false, 2⟩ r).1 = ts) :=
  C9_auth_error_amended 7 [.exn] ⟨false, 2⟩ rfl 3

/-! ### Tracker projection lemmas

Processing an id `j` touches only `j`'s per-id fields, so the tracker run
projected onto a fixed id `i` is the single-track automaton driven by `i`'s
presence sequence. -/

lemma processOne_proj_other (F now : Nat) (st : TrackerState) (i j : TrackId)
    (hij : i ≠ j) : (processOne F now st j).1.proj i = st.proj i := by
  unfold processOne TrackerState.proj
  dsimp only
  split_ifs with h <;> simp [hij]

lemma processOne_event_trackId (F now : Nat) (st : TrackerState) (j : TrackId) :
    ∀ e, (processOne F now st j).2 = some e → e.trackId = j := by
  intro e he
  unfold processOne at he
  dsimp only at he
  by_cases h : F ≤ (if (st.id_first_seen j).isNone = true then 0
      else st.id_frame_counts j) + 1 ∧ st.counted_ids j = false
  · rw [if_pos h] at he
    cases he
    rfl
  · rw [if_neg h] at he
    cases he

lemma processOne_proj_self (F now : Nat) (st : TrackerState) (i : TrackId) :
    (processOne F now st i).1.proj i = (trackStep F now i true (st.proj i)).1 ∧
    (processOne F now st i).2 = (trackStep F now i true (st.proj i)).2 := by
  unfold processOne trackStep TrackerState.proj
  dsimp only
  cases hfs : st.id_first_seen i with
  | none =>
    simp only [hfs, Option.isNone_none, if_true]
    by_cases h : F ≤ 0 + 1 ∧ st.counted_ids i = false
    · simp only [if_pos h]
      exact ⟨by simp, by simp⟩
    · simp only [if_neg h]
      exact ⟨by simp, by simp⟩
  | some u =>
    simp only [hfs, Option.isNone_some, Bool.false_eq_true, if_false]
    by_cases h : F ≤ st.id_frame_counts i + 1 ∧ st.counted_ids i = false
    · simp only [if_pos h]
      exact ⟨by simp, by simp⟩
    · simp only [if_neg h]
      exact ⟨by simp, by simp⟩

lemma processList_proj_not_mem (F now : Nat) (ids : List TrackId) :
    ∀ (st : TrackerState) (i : TrackId), i ∉ ids →
      (processList F now ids st).1.proj i = st.proj i ∧
      (processList F now ids st).2.filter (fun e => decide (e.trackId = i)) = [] := by
  induction ids with
  | nil => exact fun st i _ => ⟨rfl, rfl⟩
  | cons j rest ih =>
    intro st i hni
    have hij : i ≠ j := fun h => hni (h ▸ List.mem_cons_self j rest)
    have hnir : i ∉ rest := fun h => hni (List.mem_cons_of_mem j h)
    rw [processList]
    dsimp only
    obtain ⟨hs, he⟩ := ih (processOne F now st j).1 i hnir
    refine ⟨hs.trans (processOne_proj_other F now st i j hij), ?_⟩
    rw [List.filter_append, he, List.append_nil]
    cases hp : (processOne F now st j).2 with
    | none => simp
    | some e =>
      have := processOne_event_trackId F now st j e hp
      simp [this, Ne.symm hij]

lemma processList_proj (F now : Nat) (ids : List TrackId) :
    ∀ (st : TrackerState) (i : TrackId), ids.Nodup →
      (processList F now ids st).1.proj i =
        (trackStep F now i (decide (i ∈ ids)) (st.proj i)).1 ∧
      (processList F now ids st).2.filter (fun e => decide (e.trackId = i)) =
        (trackStep F now i (decide (i ∈ ids)) (st.proj i)).2.toList := by
  induction ids with
  | nil =>
    intro st i _
    simp [processList, trackStep]
  | cons j rest ih =>
    intro st i hnd
    rcases List.nodup_cons.mp hnd with ⟨hjr, hrest⟩
    rw [processList]
    dsimp only
    by_cases hij : i = j
    · subst hij
      have hnir : i ∉ rest := hjr
      obtain ⟨hs1, he1⟩ := processOne_proj_self F now st i
      obtain ⟨hs2, he2⟩ := processList_proj_not_mem F now rest (processOne F now st i).1 i hnir
      have hmem : decide (i ∈ i :: rest) = true := by simp
      rw [hmem]
      refine ⟨hs2.trans hs1, ?_⟩
      rw [List.filter_append, he2, List.append_nil, he1]
      cases hp : (trackStep F now i true (st.proj i)).2 with
      | none => simp
      | some e =>
        have he : e.trackId = i := by
          have hpo : (processOne F now st i).2 = some e := by rw [he1, hp]
          exact processOne_event_trackId F now st i e hpo
        simp [he]
    · have hproj := processOne_proj_other F now st i j hij
      obtain ⟨hs2, he2⟩ := ih (processOne F now st j).1 i hrest
      have hmem : decide (i ∈ j :: rest) = decide (i ∈ rest) := by
        simp [List.mem_cons, hij]
      rw [hmem]
      refine ⟨hs2.trans (by rw [hproj]), ?_⟩
      rw [List.filter_append]
      have hleft : (processOne F now st j).2.toList.filter
          (fun e => decide (e.trackId = i)) = [] := by
        cases hp : (processOne F now st j).2 with
        | none => simp
        | some e =>
          have := processOne_event_trackId F now st j e hp
          simp [this, Ne.symm hij]
      rw [hleft, List.nil_append, he2, hproj]

lemma runFrom_proj (F : Nat) (i : TrackId) (frames : List (List TrackId)) :
    ∀ (st : TrackerState) (now : Nat), (∀ f ∈ frames, f.Nodup) →
      (runFrom F st now frames).1.proj i =
        (trackRun F i now (st.proj i) (presence frames i)).1 ∧
      (runFrom F st now frames).2.filter (fun e => decide (e.trackId = i)) =
        (trackRun F i now (st.proj i) (presence frames i)).2 := by
  induction frames with
  | nil => exact fun st now _ => ⟨rfl, rfl⟩
  | cons fr rest ih =>
    intro st now h
    have hpres : presence (fr :: rest) i = decide (i ∈ fr) :: presence rest i := rfl
    rw [runFrom, hpres, trackRun]
    dsimp only
    obtain ⟨hs1, he1⟩ := processList_proj F now fr st i (h fr (List.mem_cons_self fr rest))
    obtain ⟨hs2, he2⟩ := ih (processList F now fr st).1 (now + 1)
      (fun f hf => h f (List.mem_cons_of_mem fr hf))
    rw [List.filter_append, he1, he2, hs1]
    exact ⟨hs2.trans (by rw [hs1]), rfl⟩

/-! ### Closed form of the single-track automaton -/

lemma nthTrueTime_cons_false (rest : List Bool) (now k : Nat) :
    nthTrueTime (false :: rest) now k = nthTrueTime rest (now + 1) k := by
  rw [nthTrueTime]
  simp

lemma nthTrueTime_cons_true_le_one (rest : List Bool) (now k : Nat) (hk : k ≤ 1) :
    nthTrueTime (true :: rest) now k = some now := by
  rw [nthTrueTime]
  simp [hk]

lemma nthTrueTime_cons_true_of_two_le (rest : List Bool) (now k : Nat) (hk : 2 ≤ k) :
    nthTrueTime (true :: rest) now k = nthTrueTime rest (now + 1) (k - 1) := by
  rw [nthTrueTime]
  rw [if_pos rfl, if_neg (by omega)]

lemma nthTrueTime_eq_none_iff (bs : List Bool) :
    ∀ now k : Nat, 1 ≤ k → (nthTrueTime bs now k = none ↔ bs.count true < k) := by
  induction bs with
  | nil =>
    intro now k hk
    constructor
    · intro _
      simp only [List.count_nil]
      omega
    · intro _
      rfl
  | cons b rest ih =>
    intro now k hk
    cases b with
    | false =>
      rw [nthTrueTime_cons_false, ih (now + 1) k hk]
      simp [List.count_cons]
    | true =>
      by_cases h1 : k ≤ 1
      · rw [nthTrueTime_cons_true_le_one rest now k h1]
        simp only [List.count_cons_self]
        constructor
        · intro h
          cases h
        · intro h
          omega
      · rw [nthTrueTime_cons_true_of_two_le rest now k (by omega),
          ih (now + 1) (k - 1) (by omega)]
        simp only [List.count_cons_self]
        omega

/-- Closed form of a `trackRun` from a coherent mid-run state: `a` appearance
frames seen so far, first seen at `fsv`, counted exactly when `a` has reached
the threshold.  The final count adds the remaining presence frames, the first
seen time fills at the first remaining `true`, and the single counted event
(if the threshold is reached) is emitted exactly at the `(F - a)`-th
remaining appearance. -/
lemma trackRun_spec (F : Nat) (hF : 1 ≤ F) (i : TrackId) (bs : List Bool) :
    ∀ (now a : Nat) (fsv : Option Nat), (fsv = none ↔ a = 0) →
      trackRun F i now ⟨fsv, a, decide (F ≤ a)⟩ bs =
        (⟨fsv.or (nthTrueTime bs now 1), a + bs.count true,
          decide (F ≤ a + bs.count true)⟩,
         if F ≤ a then []
         else
           ((nthTrueTime bs now (F - a)).map fun t =>
             { trackId := i, detectedAt := t,
               dwellSeconds := t - fsv.getD ((nthTrueTime bs now 1).getD t),
               wasCounted := true }).toList) := by
  induction bs with
  | nil =>
    intro now a fsv hinv
    rw [trackRun]
    rcases fsv with _ | u
    · by_cases h : F ≤ a
      · rw [if_pos h]
        rfl
      · rw [if_neg h]
        rfl
    · by_cases h : F ≤ a
      · rw [if_pos h]
        rfl
      · rw [if_neg h]
        rfl
  | cons b rest ih =>
    intro now a fsv hinv
    rw [trackRun]
    cases b with
    | false =>
      have hstep : trackStep F now i false ⟨fsv, a, decide (F ≤ a)⟩ =
          (⟨fsv, a, decide (F ≤ a)⟩, none) := rfl
      rw [hstep]
      dsimp only
      rw [ih (now + 1) a fsv hinv]
      rcases fsv with _ | u <;>
        simp [nthTrueTime_cons_false, List.count_cons]
    | true =>
      rcases fsv with _ | u
      · have ha : a = 0 := hinv.mp rfl
        subst ha
        have hd0 : decide (F ≤ 0) = false := by
          simp only [decide_eq_false_iff_not]
          omega
        rw [hd0]
        by_cases hF1 : F ≤ 1
        · have hF1' : F = 1 := by omega
          subst hF1'
          have hstep : trackStep 1 now i true ⟨none, 0, false⟩ =
              (⟨some now, 1, true⟩,
               some { trackId := i, detectedAt := now, dwellSeconds := now - now,
                      wasCounted := true }) := rfl
          rw [hstep]
          dsimp only
          have h1 : (⟨some now, 1, true⟩ : TrackState) = ⟨some now, 1, decide (1 ≤ 1)⟩ := by
            simp
          rw [h1, ih (now + 1) 1 (some now) (by simp)]
          rw [if_pos (le_refl 1), if_neg (by omega)]
          rw [Nat.sub_zero, nthTrueTime_cons_true_le_one rest now 1 (le_refl 1)]
          simp only [Option.or, Nat.sub_self, Option.map_some, Option.toList_some,
            List.append_nil, Option.getD_some, Option.getD_none,
            List.count_cons_self, Prod.mk.injEq, TrackState.mk.injEq]
          refine ⟨⟨by trivial, by omega, by rw [decide_eq_decide]; omega⟩, by simp⟩
        · have hnot : ¬(F ≤ 0 + 1 ∧ (false : Bool) = false) := by
            intro hc
            obtain ⟨hc1, _⟩ := hc
            exact hF1 (by omega)
          have hstep : trackStep F now i true ⟨none, 0, false⟩ =
              (⟨some now, 1, false⟩, none) := by
            rw [trackStep]
            dsimp only
            rw [if_neg hnot]
          rw [hstep]
          dsimp only
          have h1 : (⟨some now, 1, false⟩ : TrackState) = ⟨some now, 1, decide (F ≤ 1)⟩ := by
            simp only [TrackState.mk.injEq, true_and]
            rw [eq_comm, decide_eq_false_iff_not]
            omega
          rw [h1, ih (now + 1) 1 (some now) (by simp)]
          rw [if_neg hF1, if_neg (by omega)]
          rw [Nat.sub_zero, nthTrueTime_cons_true_le_one rest now 1 (le_refl 1),
            nthTrueTime_cons_true_of_two_le rest now F (by omega)]
          simp only [Option.or, Option.toList_none, List.nil_append,
            Option.getD_some, List.count_cons_self, Prod.mk.injEq,
            TrackState.mk.injEq, Nat.zero_add]
          refine ⟨⟨by trivial, by omega, by rw [decide_eq_decide]; omega⟩, by trivial⟩
      · by_cases hFa : F ≤ a
        · have hnot : ¬(F ≤ a + 1 ∧ decide (F ≤ a) = false) := by
            intro hc
            exact (decide_eq_false_iff_not.mp hc.2) hFa
          have hstep : trackStep F now i true ⟨some u, a, decide (F ≤ a)⟩ =
              (⟨some u, a + 1, decide (F ≤ a)⟩, none) := by
            rw [trackStep]
            dsimp only
            rw [if_neg hnot]
          rw [hstep]
          dsimp only
          have h1 : (⟨some u, a + 1, decide (F ≤ a)⟩ : TrackState) =
              ⟨some u, a + 1, decide (F ≤ a + 1)⟩ := by
            simp only [TrackState.mk.injEq, true_and]
            rw [decide_eq_decide]
            omega
          rw [h1, ih (now + 1) (a + 1) (some u) (by simp)]
          rw [if_pos (by omega : F ≤ a + 1), if_pos hFa]
          simp only [Option.or, List.count_cons_self, Prod.mk.injEq,
            TrackState.mk.injEq, List.append_nil, Option.toList_none]
          refine ⟨⟨by trivial, by omega, by rw [decide_eq_decide]; omega⟩, by trivial⟩
        · by_cases hFa1 : F ≤ a + 1
          · have hyes : F ≤ a + 1 ∧ decide (F ≤ a) = false :=
              ⟨hFa1, decide_eq_false_iff_not.mpr hFa⟩
            have hstep : trackStep F now i true ⟨some u, a, decide (F ≤ a)⟩ =
                (⟨some u, a + 1, true⟩,
                 some { trackId := i, detectedAt := now, dwellSeconds := now - u,
                        wasCounted := true }) := by
              rw [trackStep]
              dsimp only
              rw [if_pos hyes]
              rfl
            rw [hstep]
            dsimp only
            have h1 : (⟨some u, a + 1, true⟩ : TrackState) =
                ⟨some u, a + 1, decide (F ≤ a + 1)⟩ := by
              simp [decide_eq_true hFa1]
            rw [h1, ih (now + 1) (a + 1) (some u) (by simp)]
            rw [if_pos hFa1, if_neg hFa]
            have hFsub : F - a = 1 := by omega
            rw [hFsub, nthTrueTime_cons_true_le_one rest now 1 (le_refl 1)]
            simp only [Option.or, List.count_cons_self, Prod.mk.injEq,
              TrackState.mk.injEq, List.append_nil, Option.map_some,
              Option.toList_some, Option.getD_some]
            refine ⟨⟨by trivial, by omega, by rw [decide_eq_decide]; omega⟩, by trivial⟩
          · have hnot : ¬(F ≤ a + 1 ∧ decide (F ≤ a) = false) := by
              intro hc
              exact hFa1 hc.1
            have hstep : trackStep F now i true ⟨some u, a, decide (F ≤ a)⟩ =
                (⟨some u, a + 1, decide (F ≤ a)⟩, none) := by
              rw [trackStep]
              dsimp only
              rw [if_neg hnot]
            rw [hstep]
            dsimp only
            have h1 : (⟨some u, a + 1, decide (F ≤ a)⟩ : TrackState) =
                ⟨some u, a + 1, decide (F ≤ a + 1)⟩ := by
              simp only [TrackState.mk.injEq, true_and]
              rw [decide_eq_decide]
              omega
            rw [h1, ih (now + 1) (a + 1) (some u) (by simp)]
            rw [if_neg hFa1, if_neg hFa]
            rw [nthTrueTime_cons_true_of_two_le rest now (F - a) (by omega)]
            have hFsub : F - a - 1 = F - (a + 1) := by omega
            rw [hFsub]
            simp only [Option.or, List.count_cons_self, Prod.mk.injEq,
              TrackState.mk.injEq, Option.getD_some, List.nil_append]
            refine ⟨⟨by trivial, by omega, by rw [decide_eq_decide]; omega⟩, by trivial⟩

/-- Claim C1: for every sequence of detector outputs (duplicate-free per-frame
id lists, threshold at least 1), a track id yields exactly one
`wasCounted=true` detection event, emitted precisely at the frame where its
cumulative appearance-frame count first reaches `frames_to_count` (the time of
its `F`-th appearance), with dwell measured from its first appearance; an id
whose appearances stop before reaching the threshold yields zero counted
events (the `F`-th appearance time is `none` exactly when the total
appearance count stays below `F`). -/
theorem C1_exactly_one_counted_event (F : Nat) (hF : 1 ≤ F)
    (frames : List (List TrackId)) (hnd : ∀ f ∈ frames, f.Nodup) (i : TrackId) :
    (runTracker F frames).2.filter (fun e => decide (e.trackId = i)) =
      ((nthTrueTime (presence frames i) 0 F).map fun t =>
        { trackId := i, detectedAt := t,
          dwellSeconds := t - (nthTrueTime (presence frames i) 0 1).getD t,
          wasCounted := true }).toList ∧
    (nthTrueTime (presence frames i) 0 F = none ↔
      (presence frames i).count true < F) := by
  have hproj := runFrom_proj F i frames initTracker 0 hnd
  have hd0 : decide (F ≤ 0) = false := decide_eq_false_iff_not.mpr (by omega)
  have hinit : initTracker.proj i = ⟨none, 0, decide (F ≤ 0)⟩ := by
    rw [hd0]
    rfl
  rw [hinit, trackRun_spec F hF i (presence frames i) 0 0 none (by simp)] at hproj
  obtain ⟨hstate, hevents⟩ := hproj
  constructor
  · rw [if_neg (by omega : ¬F ≤ 0), Nat.sub_zero] at hevents
    simpa [runTracker] using hevents
  · exact nthTrueTime_eq_none_iff (presence frames i) 0 F hF

/-- Witness for `C1_exactly_one_counted_event`: one frame containing id 0 and
threshold 1 — one event, emitted at that frame. -/
theorem C1_witness :
    (runTracker 1 [[0]]).2.filter (fun e => decide (e.trackId = 0)) =
      ((nthTrueTime (presence [[0]] 0) 0 1).map fun t =>
        { trackId := 0, detectedAt := t,
          dwellSeconds := t - (nthTrueTime (presence [[0]] 0) 0 1).getD t,
          wasCounted := true }).toList ∧
    (nthTrueTime (presence [[0]] 0) 0 1 = none ↔
      (presence [[0]] 0).count true < 1) :=
  C1_exactly_one_counted_event 1 (le_refl 1) [[0]] (by simp) 0

/-- Claim C2, counterexample: the tracker increments the frame counter in the
same iteration that initializes it, so after an id's first appearance the
counter is 1 (the claim says it stays 0 until a subsequent frame), and with
`frames_to_count = 2` the counted transition fires on the 2nd appearance, not
the 3rd: a run of just two appearances already produces the counted event. -/
theorem C2_counterexample :
    (processList 2 0 [5] initTracker).1.id_frame_counts 5 = 1 ∧
    (runTracker 2 [[5], [5]]).2 =
      [{ trackId := 5, detectedAt := 1, dwellSeconds := 1, wasCounted := true }] :=
  ⟨rfl, rfl⟩

/-- Claim C2, amended: on the first appearance of an id the tracker records
`firstSeen` and sets the frame count to 0 but then increments it in the same
iteration, so the count is incremented on every frame in which the id appears,
the first included — after any run it equals the number of appearance frames —
and with `frames_to_count = N` the transition to Counted fires on the id's
`N`-th appearance. -/
theorem C2_first_frame_counts_amended (F : Nat) (hF : 1 ≤ F)
    (frames : List (List TrackId)) (hnd : ∀ f ∈ frames, f.Nodup) (i : TrackId) :
    (runTracker F frames).1.id_first_seen i = nthTrueTime (presence frames i) 0 1 ∧
    (runTracker F frames).1.id_frame_counts i = (presence frames i).count true ∧
    (runTracker F frames).1.counted_ids i =
      decide (F ≤ (presence frames i).count true) ∧
    ((runTracker F frames).2.filter (fun e => decide (e.trackId = i))).map
        (fun e => e.detectedAt) =
      (nthTrueTime (presence frames i) 0 F).toList := by
  have hproj := runFrom_proj F i frames initTracker 0 hnd
  have hd0 : decide (F ≤ 0) = false := decide_eq_false_iff_not.mpr (by omega)
  have hinit : initTracker.proj i = ⟨none, 0, decide (F ≤ 0)⟩ := by
    rw [hd0]
    rfl
  rw [hinit, trackRun_spec F hF i (presence frames i) 0 0 none (by simp)] at hproj
  obtain ⟨hstate, hevents⟩ := hproj
  have hfs := congrArg TrackState.firstSeen hstate
  have hct := congrArg TrackState.count hstate
  have hcd := congrArg TrackState.counted hstate
  simp only [TrackerState.proj, Option.or, Nat.zero_add] at hfs hct hcd
  refine ⟨?_, ?_, ?_, ?_⟩
  · simpa [runTracker] using hfs
  · simpa [runTracker] using hct
  · simpa [runTracker] using hcd
  · rw [if_neg (by omega : ¬F ≤ 0), Nat.sub_zero] at hevents
    rw [show runTracker F frames = runFrom F initTracker 0 frames from rfl, hevents]
    cases hnt : nthTrueTime (presence frames i) 0 F <;> simp

/-- Witness for `C2_first_frame_counts_amended`: three appearances of id 5
with threshold 2 — count 3, counted, transition at the 2nd appearance. -/
theorem C2_witness :
    (runTracker 2 [[5], [5], [5]]).1.id_first_seen 5 =
      nthTrueTime (presence [[5], [5], [5]] 5) 0 1 ∧
    (runTracker 2 [[5], [5], [5]]).1.id_frame_counts 5 =
      (presence [[5], [5], [5]] 5).count true ∧
    (runTracker 2 [[5], [5], [5]]).1.counted_ids 5 =
      decide (2 ≤ (presence [[5], [5], [5]] 5).count true) ∧
    ((runTracker 2 [[5], [5], [5]]).2.filter (fun e => decide (e.trackId = 5))).map
        (fun e => e.detectedAt) =
      (nthTrueTime (presence [[5], [5], [5]] 5) 0 2).toList :=
  C2_first_frame_counts_amended 2 (by omega) [[5], [5], [5]] (by simp) 5

end Surveillance
